import Mathlib

/-!
# Verification of the Flask Task Management API (`src/flask-app-complete.py`)

Shallow embedding of the task-store logic of the Flask application.  JSON
values are modelled by the inductive `JVal`; a request payload is an
`Option Dict` where `none` stands for an absent/unparsed body and `some d`
for a parsed JSON object with fields `d` (the handlers of the application
only ever index the payload as a dict; Python dict semantics — first-key
lookup, falsiness of the empty dict — are modelled explicitly).  The global
mutable state (`tasks` list and `task_counter`) becomes the structure
`TaskApp.Task`/`TaskApp.StoreState`, threaded explicitly through each
handler.  The wall clock (`datetime.utcnow().isoformat() + "Z"`) is passed
in as a `now : String` parameter.  Each handler returns its result together
with the new state.
-/

namespace TaskApp

/-- A JSON value, as produced by `request.get_json()`. -/
inductive JVal where
  | null : JVal
  | bool : Bool → JVal
  | num : Int → JVal
  | str : String → JVal
  | arr : List JVal → JVal
  | obj : List (String × JVal) → JVal

/-- Python truthiness test `not v` (modelling `not data`, `not data['title']`):
`None`, `False`, `0`, `""`, `[]` and `{}` are falsy, everything else truthy. -/
def JVal.falsy : JVal → Bool
  | .null => true
  | .bool b => !b
  | .num n => n == 0
  | .str s => s.isEmpty
  | .arr xs => xs.isEmpty
  | .obj kvs => kvs.isEmpty

/-- Python `isinstance(v, bool)`. -/
def JVal.isBool : JVal → Bool
  | .bool _ => true
  | _ => false

/-- Python `len(v)`: defined on strings, lists and dicts; `none` models the
`TypeError` raised on other values. -/
def JVal.pyLen : JVal → Option Nat
  | .str s => some s.length
  | .arr xs => some xs.length
  | .obj kvs => some kvs.length
  | _ => none

/-- The fields of a parsed JSON object payload. -/
abbrev Dict : Type := List (String × JVal)

/-- Python `k in d`. -/
def dictHas (d : Dict) (k : String) : Bool :=
  List.any d (fun p => p.1 == k)

/-- Python `d[k]` (first matching key; a parsed JSON object has no
duplicate keys anyway). -/
def dictLookup (d : Dict) (k : String) : Option JVal :=
  Option.map Prod.snd (List.find? (fun p => p.1 == k) d)

/-- Python `d.get(k, default)`. -/
def dictGet (d : Dict) (k : String) (default : JVal) : JVal :=
  Option.getD (dictLookup d k) default

/-- A task record:
`{"id": ..., "title": ..., "description": ..., "completed": ..., "created_at": ...}`.
`title`, `description` and `completed` hold whatever JSON value the code
stores there (creation performs no type check on `description`/`completed`). -/
structure Task where
  id : Nat
  title : JVal
  description : JVal
  completed : JVal
  created_at : String

/-- The module-level mutable state: the `tasks` list and `task_counter`. -/
structure StoreState where
  tasks : List Task
  task_counter : Nat

/-- The two seed tasks and `task_counter = 3` the module starts with. -/
def initialState : StoreState :=
  { tasks :=
      [ { id := 1, title := .str "Setup CI/CD Pipeline",
          description := .str "Configure GitHub Actions",
          completed := .bool false, created_at := "2024-01-15T10:00:00Z" },
        { id := 2, title := .str "Write Unit Tests",
          description := .str "Create comprehensive test suite",
          completed := .bool false, created_at := "2024-01-15T11:00:00Z" } ],
    task_counter := 3 }

/-- `next((t for t in tasks if t['id'] == task_id), None)`. -/
def findById (ts : List Task) (task_id : Nat) : Option Task :=
  List.find? (fun t => t.id == task_id) ts

/-- Result of `GET /api/tasks`: the task list and the count. -/
def get_tasks (s : StoreState) : List Task × Nat :=
  (s.tasks, s.tasks.length)

/-- Result of `GET /api/tasks/<id>`. -/
inductive GetResult where
  | ok : Task → GetResult
  | notFound : Nat → GetResult

/-- `get_task`: look the task up by id, 404 if absent.  Read-only. -/
def get_task (s : StoreState) (task_id : Nat) : GetResult :=
  match findById s.tasks task_id with
  | some t => .ok t
  | none => .notFound task_id

/-- Result of `POST /api/tasks`.  `validationError` carries the `error`
message of the 400 response; `typeError` models an uncaught Python
`TypeError` (`len` applied to a number/bool/null title), surfaced as a 500. -/
inductive CreateResult where
  | ok : Task → CreateResult
  | validationError : String → CreateResult
  | typeError : CreateResult

/-- `create_task`: validates the payload, then builds the new task with
`id = task_counter`, appends it and increments the counter. -/
def create_task (s : StoreState) (data : Option Dict) (now : String) :
    CreateResult × StoreState :=
  match data with
  | none => (.validationError "Request body is required", s)
  | some d =>
    if (JVal.obj d).falsy then
      (.validationError "Request body is required", s)
    else if !(dictHas d "title") || (dictGet d "title" .null).falsy then
      (.validationError "Title is required", s)
    else
      match (dictGet d "title" .null).pyLen with
      | none => (.typeError, s)
      | some n =>
        if n < 1 then
          (.validationError "Title cannot be empty", s)
        else
          let new_task : Task :=
            { id := s.task_counter,
              title := dictGet d "title" .null,
              description := dictGet d "description" (.str ""),
              completed := dictGet d "completed" (.bool false),
              created_at := now }
          (.ok new_task,
           { tasks := s.tasks ++ [new_task],
             task_counter := s.task_counter + 1 })

/-- Result of `PUT /api/tasks/<id>`. -/
inductive UpdateResult where
  | ok : Task → UpdateResult
  | notFound : Nat → UpdateResult
  | validationError : String → UpdateResult

/-- The sequential field updates of `update_task` on the found task dict:
title first (early 400 on a falsy value), then description, then completed
(early 400 on a non-boolean).  An error carries the task as already mutated
by the fields processed before the failure, since the Python code mutates
the stored dict in place and returns on the first failing field. -/
def applyUpdate (t : Task) (d : Dict) : Except (String × Task) Task :=
  let afterTitle : Except (String × Task) Task :=
    if dictHas d "title" then
      if (dictGet d "title" .null).falsy then
        .error ("Title cannot be empty", t)
      else
        .ok { t with title := dictGet d "title" .null }
    else
      .ok t
  match afterTitle with
  | .error e => .error e
  | .ok t1 =>
    let t2 : Task :=
      if dictHas d "description" then
        { t1 with description := dictGet d "description" .null }
      else t1
    if dictHas d "completed" then
      if (dictGet d "completed" .null).isBool then
        .ok { t2 with completed := dictGet d "completed" .null }
      else
        .error ("Completed must be a boolean", t2)
    else
      .ok t2

/-- Replace the first task whose id is `task_id` (the object `next` found
and the code mutates in place), leaving every other element untouched. -/
def setFirstById (ts : List Task) (task_id : Nat) (t' : Task) : List Task :=
  match ts with
  | [] => []
  | t :: rest =>
    if t.id == task_id then t' :: rest
    else t :: setFirstById rest task_id t'

/-- `update_task`: not-found check first, then body check, then the
sequential field updates, written back in place. -/
def update_task (s : StoreState) (task_id : Nat) (data : Option Dict) :
    UpdateResult × StoreState :=
  match findById s.tasks task_id with
  | none => (.notFound task_id, s)
  | some t =>
    match data with
    | none => (.validationError "Request body is required", s)
    | some d =>
      if (JVal.obj d).falsy then
        (.validationError "Request body is required", s)
      else
        match applyUpdate t d with
        | .ok t' =>
          (.ok t', { s with tasks := setFirstById s.tasks task_id t' })
        | .error (msg, t') =>
          (.validationError msg,
           { s with tasks := setFirstById s.tasks task_id t' })

/-- Result of `DELETE /api/tasks/<id>`. -/
inductive DeleteResult where
  | ok : Nat → DeleteResult
  | notFound : Nat → DeleteResult

/-- `delete_task`: 404 if no task matches, otherwise
`tasks = [t for t in tasks if t['id'] != task_id]`. -/
def delete_task (s : StoreState) (task_id : Nat) : DeleteResult × StoreState :=
  match findById s.tasks task_id with
  | none => (.notFound task_id, s)
  | some _ =>
    (.ok task_id,
     { s with tasks := List.filter (fun t => t.id != task_id) s.tasks })

/-- One mutating operation against the store (the clock value observed by a
create is part of the operation). -/
inductive Op where
  | create : Option Dict → String → Op
  | update : Nat → Option Dict → Op
  | delete : Nat → Op

/-- State transition of one operation. -/
def applyOp (s : StoreState) : Op → StoreState
  | .create d now => (create_task s d now).2
  | .update i d => (update_task s i d).2
  | .delete i => (delete_task s i).2

/-- Run a sequence of operations from a state. -/
def runOps (s : StoreState) : List Op → StoreState
  | [] => s
  | op :: ops => runOps (applyOp s op) ops

/-- The ids handed out by the successful creates of a run, in order. -/
def createdIds (s : StoreState) : List Op → List Nat
  | [] => []
  | op :: ops =>
    match op with
    | .create d now =>
      match (create_task s d now).1 with
      | .ok t => t.id :: createdIds (applyOp s (.create d now)) ops
      | _ => createdIds (applyOp s (.create d now)) ops
    | .update i d => createdIds (applyOp s (.update i d)) ops
    | .delete i => createdIds (applyOp s (.delete i)) ops

/-- Number of successful creates in a run. -/
def succCreates (s : StoreState) : List Op → Nat
  | [] => 0
  | op :: ops =>
    (match op with
     | .create d now =>
       match (create_task s d now).1 with
       | .ok _ => 1
       | _ => 0
     | _ => 0) + succCreates (applyOp s op) ops

/-- Number of successful deletes in a run. -/
def succDeletes (s : StoreState) : List Op → Nat
  | [] => 0
  | op :: ops =>
    (match op with
     | .delete i =>
       match (delete_task s i).1 with
       | .ok _ => 1
       | _ => 0
     | _ => 0) + succDeletes (applyOp s op) ops

/-- Store invariant: every stored id is below the counter, and stored ids
are pairwise distinct. -/
def stateInv (s : StoreState) : Prop :=
  (∀ i ∈ s.tasks.map Task.id, i < s.task_counter) ∧ (s.tasks.map Task.id).Nodup

/-- The task an `applyUpdate` run leaves in the store: the fully updated
task on success, the partially updated one on a validation failure. -/
def resultTask : Except (String × Task) Task → Task
  | .ok t => t
  | .error (_, t) => t

/-! ## Helper lemmas about the dictionary and list primitives -/

theorem dictHas_of_lookup {d : Dict} {k : String} {v : JVal}
    (h : dictLookup d k = some v) : dictHas d k = true := by
  induction d with
  | nil => simp [dictLookup] at h
  | cons p rest ih =>
    cases hk : (p.1 == k) with
    | true => simp [dictHas, hk]
    | false =>
      have h' : dictLookup rest k = some v := by
        simpa [dictLookup, List.find?_cons, hk] using h
      have := ih h'
      simp [dictHas, hk]
      simpa [dictHas] using this

theorem dict_ne_nil_of_has {d : Dict} {k : String}
    (h : dictHas d k = true) : d ≠ [] := by
  intro hnil
  subst hnil
  simp [dictHas] at h

theorem obj_falsy_false_of_ne_nil {d : Dict} (h : d ≠ []) :
    (JVal.obj d).falsy = false := by
  simp [JVal.falsy, List.isEmpty_iff, h]

theorem str_falsy_false_of_ne {s : String} (h : s ≠ "") :
    (JVal.str s).falsy = false := by
  simp only [JVal.falsy]
  rw [Bool.eq_false_iff]
  intro hh
  exact h ((String.isEmpty_iff s).mp hh)

theorem string_length_pos_of_ne {s : String} (h : s ≠ "") : ¬ s.length < 1 := by
  intro hlt
  have h0 : s.length = 0 := by omega
  apply h
  cases s with
  | mk data =>
    have hd : data = [] := List.length_eq_zero.mp h0
    simp [hd]

theorem findById_id {ts : List Task} {i : Nat} {t : Task}
    (h : findById ts i = some t) : t.id = i := by
  unfold findById at h
  have h2 := @List.find?_some Task (fun u : Task => u.id == i) t ts h
  simpa using h2

theorem findById_mem {ts : List Task} {i : Nat} {t : Task}
    (h : findById ts i = some t) : t ∈ ts := by
  unfold findById at h
  exact List.mem_of_find?_eq_some h

/-! ## Claim theorems -/

/-- C4: for every id that matches no task, `Update` fails with
`NotFound(id)` regardless of the payload — even a missing body or an
invalid payload — because the not-found check precedes the body-presence
check and all field validation, and the state is unchanged. -/
theorem update_notFound_precedes_validation
    (s : StoreState) (task_id : Nat) (data : Option Dict)
    (h : findById s.tasks task_id = none) :
    update_task s task_id data = (.notFound task_id, s) := by
  simp [update_task, h]

/-- Witness for C4: updating the deleted-or-absent id 99 of the seeded
store with an empty-title payload (itself invalid) yields `NotFound`, not a
validation error. -/
theorem update_notFound_precedes_validation_witness :
    update_task initialState 99 (some [("title", JVal.str "")]) =
      (.notFound 99, initialState) :=
  update_notFound_precedes_validation initialState 99
    (some [("title", JVal.str "")]) rfl

/-- C5 counterexample: an empty JSON object payload `{}` is falsy in
Python, so `create_task` rejects it with the body-required error, not the
title-required error the claim asserts. -/
theorem create_emptyObject_body_required :
    (create_task initialState (some []) "T").1 =
        CreateResult.validationError "Request body is required" ∧
      (create_task initialState (some []) "T").1 ≠
        CreateResult.validationError "Title is required" := by
  refine ⟨rfl, ?_⟩
  intro h
  rw [show (create_task initialState (some []) "T").1 =
      CreateResult.validationError "Request body is required" from rfl] at h
  injection h with h'
  exact absurd h' (by decide)

/-- C5 amended: `Create` fails with the body-required error when no payload
is given or the payload is a falsy (empty) JSON object; for a payload that
is a non-empty object omitting `title`, it fails with the title-required
error. -/
theorem create_body_vs_title_required (s : StoreState) (now : String) :
    (create_task s none now).1 =
        CreateResult.validationError "Request body is required" ∧
      (create_task s (some []) now).1 =
        CreateResult.validationError "Request body is required" ∧
      ∀ d : Dict, d ≠ [] → dictHas d "title" = false →
        (create_task s (some d) now).1 =
          CreateResult.validationError "Title is required" := by
  refine ⟨rfl, rfl, ?_⟩
  intro d hne hhas
  simp [create_task, obj_falsy_false_of_ne_nil hne, hhas]

/-- Witness for C5 (amended): a non-empty object without `title` gets the
title-required error from the seeded store. -/
theorem create_body_vs_title_required_witness :
    (create_task initialState (some [("description", JVal.str "x")]) "T").1 =
      CreateResult.validationError "Title is required" :=
  (create_body_vs_title_required initialState "T").2.2
    [("description", JVal.str "x")] (List.cons_ne_nil _ _) rfl

/-- C8: whenever `Create` fails with a validation error (missing body,
falsy body, missing/empty/falsy title), the store is unchanged — nothing is
appended and the counter is not incremented. -/
theorem create_validationError_state_unchanged
    (s : StoreState) (data : Option Dict) (now msg : String)
    (h : (create_task s data now).1 = CreateResult.validationError msg) :
    (create_task s data now).2 = s := by
  cases data with
  | none => rfl
  | some d =>
    by_cases h1 : (JVal.obj d).falsy = true
    · simp [create_task, h1]
    · rw [Bool.not_eq_true] at h1
      by_cases h2 :
          (!(dictHas d "title") || (dictGet d "title" JVal.null).falsy) = true
      · simp [create_task, h1, h2]
      · rw [Bool.not_eq_true] at h2
        cases hp : (dictGet d "title" JVal.null).pyLen with
        | none => simp [create_task, h1, h2, hp]
        | some n =>
          by_cases h3 : n < 1
          · simp [create_task, h1, h2, hp, h3]
          · simp [create_task, h1, h2, hp, h3] at h

/-- Witness for C8: the missing-body failure leaves the seeded store
untouched. -/
theorem create_validationError_state_unchanged_witness :
    (create_task initialState none "T").2 = initialState :=
  create_validationError_state_unchanged initialState none "T"
    "Request body is required" rfl

/-- Shared computation: `create_task` on a payload whose `title` is a
non-empty string takes the success path, building the new task from the
counter, the clock and the payload defaults, appending it and bumping the
counter. -/
theorem create_task_str_title_eq
    (s : StoreState) (d : Dict) (now : String) (title : String)
    (hlook : dictLookup d "title" = some (JVal.str title))
    (hne : title ≠ "") :
    create_task s (some d) now =
      (CreateResult.ok
         { id := s.task_counter, title := JVal.str title,
           description := dictGet d "description" (JVal.str ""),
           completed := dictGet d "completed" (JVal.bool false),
           created_at := now },
       { tasks := s.tasks ++
           [{ id := s.task_counter, title := JVal.str title,
              description := dictGet d "description" (JVal.str ""),
              completed := dictGet d "completed" (JVal.bool false),
              created_at := now }],
         task_counter := s.task_counter + 1 }) := by
  have hhas := dictHas_of_lookup hlook
  have hget : dictGet d "title" JVal.null = JVal.str title := by
    simp [dictGet, hlook]
  have hobj := obj_falsy_false_of_ne_nil (dict_ne_nil_of_has hhas)
  have hfj := str_falsy_false_of_ne hne
  have hlen := string_length_pos_of_ne hne
  simp [create_task, hobj, hhas, hget, hfj, JVal.pyLen, hlen]

/-- C1: for every payload containing a non-empty (string) title, `Create`
succeeds; the returned task has `id` equal to the counter at the start of
the call, `created_at` equal to the timestamp captured during the call,
`description` from the payload or `""`, `completed` from the payload or
`false`; it is appended at the end of the collection, the previously stored
tasks are unchanged and in order, and the counter is incremented by one. -/
theorem create_success_spec
    (s : StoreState) (d : Dict) (now : String) (title : String)
    (hlook : dictLookup d "title" = some (JVal.str title))
    (hne : title ≠ "") :
    create_task s (some d) now =
      (CreateResult.ok
         { id := s.task_counter, title := JVal.str title,
           description := dictGet d "description" (JVal.str ""),
           completed := dictGet d "completed" (JVal.bool false),
           created_at := now },
       { tasks := s.tasks ++
           [{ id := s.task_counter, title := JVal.str title,
              description := dictGet d "description" (JVal.str ""),
              completed := dictGet d "completed" (JVal.bool false),
              created_at := now }],
         task_counter := s.task_counter + 1 }) :=
  create_task_str_title_eq s d now title hlook hne

/-- Witness for C1: creating `{"title": "A"}` from the seeded store yields
the task with id 3 appended after the two seed tasks, and counter 4. -/
theorem create_success_spec_witness :
    create_task initialState (some [("title", JVal.str "A")]) "T" =
      (CreateResult.ok
         { id := 3, title := JVal.str "A", description := JVal.str "",
           completed := JVal.bool false, created_at := "T" },
       { tasks := initialState.tasks ++
           [{ id := 3, title := JVal.str "A", description := JVal.str "",
              completed := JVal.bool false, created_at := "T" }],
         task_counter := 4 }) := by
  have h := create_success_spec initialState [("title", JVal.str "A")] "T" "A"
    rfl (by decide)
  exact h

/-- C10: for every payload whose `title` field is a string, `Create` never
returns the error `"Title cannot be empty"`: an empty string title is
already rejected by the preceding title-required check, so the
`len(data['title']) < 1` guard is dead code. -/
theorem create_titleEmpty_error_unreachable
    (s : StoreState) (d : Dict) (now : String) (title : String)
    (hlook : dictLookup d "title" = some (JVal.str title)) :
    (create_task s (some d) now).1 ≠
      CreateResult.validationError "Title cannot be empty" := by
  have hhas := dictHas_of_lookup hlook
  have hget : dictGet d "title" JVal.null = JVal.str title := by
    simp [dictGet, hlook]
  have hobj := obj_falsy_false_of_ne_nil (dict_ne_nil_of_has hhas)
  by_cases he : title = ""
  · subst he
    have hfj : (JVal.str "").falsy = true := by decide
    have hr : (create_task s (some d) now).1 =
        CreateResult.validationError "Title is required" := by
      simp [create_task, hobj, hhas, hget, hfj]
    rw [hr]
    intro h
    injection h with h'
    exact absurd h' (by decide)
  · have hr := create_task_str_title_eq s d now title hlook he
    intro h
    rw [hr] at h
    exact CreateResult.noConfusion h

/-- Witness for C10: a payload with the string title `"A"` does not hit the
dead `"Title cannot be empty"` branch. -/
theorem create_titleEmpty_error_unreachable_witness :
    (create_task initialState (some [("title", JVal.str "A")]) "T").1 ≠
      CreateResult.validationError "Title cannot be empty" :=
  create_titleEmpty_error_unreachable initialState
    [("title", JVal.str "A")] "T" "A" rfl

/-! ## Lemmas about `applyUpdate` and `setFirstById` -/

theorem applyUpdate_resultTask (t : Task) (d : Dict) :
    (resultTask (applyUpdate t d)).id = t.id ∧
    (resultTask (applyUpdate t d)).created_at = t.created_at ∧
    (dictHas d "title" = false →
      (resultTask (applyUpdate t d)).title = t.title) ∧
    (dictHas d "description" = false →
      (resultTask (applyUpdate t d)).description = t.description) ∧
    (dictHas d "completed" = false ∨
        (dictGet d "completed" JVal.null).isBool = false →
      (resultTask (applyUpdate t d)).completed = t.completed) := by
  by_cases ht : dictHas d "title" = true <;>
    by_cases hf : (dictGet d "title" JVal.null).falsy = true <;>
      by_cases hdesc : dictHas d "description" = true <;>
        by_cases hc : dictHas d "completed" = true <;>
          by_cases hb : (dictGet d "completed" JVal.null).isBool = true <;>
            simp [applyUpdate, resultTask, ht, hf, hdesc, hc, hb]

theorem setFirstById_length (ts : List Task) (i : Nat) (t' : Task) :
    (setFirstById ts i t').length = ts.length := by
  induction ts with
  | nil => rfl
  | cons a rest ih =>
    by_cases h : (a.id == i) = true <;> simp [setFirstById, h, ih]

theorem setFirstById_map_id (ts : List Task) (i : Nat) (t' : Task)
    (h : t'.id = i) :
    (setFirstById ts i t').map Task.id = ts.map Task.id := by
  induction ts with
  | nil => rfl
  | cons a rest ih =>
    cases ha : (a.id == i) with
    | true =>
      have : a.id = i := beq_iff_eq.mp ha
      simp [setFirstById, ha, h, this]
    | false => simp [setFirstById, ha, ih]

theorem setFirstById_get?_ne (ts : List Task) (i : Nat) (t' : Task)
    (j : Nat) (u : Task) (hu : ts.get? j = some u) (hne : u.id ≠ i) :
    (setFirstById ts i t').get? j = some u := by
  induction ts generalizing j with
  | nil => simp at hu
  | cons a rest ih =>
    cases j with
    | zero =>
      have ha : a = u := by simpa using hu
      subst ha
      have hb : (a.id == i) = false := by simp [hne]
      simp [setFirstById, hb]
    | succ j =>
      have hu' : rest.get? j = some u := hu
      cases ha : (a.id == i) with
      | true => simpa [setFirstById, ha] using hu'
      | false => simpa [setFirstById, ha] using ih j hu'

/-- The state left by an `update_task` that found its task and got a
non-falsy payload: the found task, as transformed by the sequential field
processing (fully on success, partially on failure), is written back in
place. -/
theorem update_task_state_eq
    (s : StoreState) (task_id : Nat) (d : Dict) (t : Task)
    (hfind : findById s.tasks task_id = some t)
    (hobj : (JVal.obj d).falsy = false) :
    (update_task s task_id (some d)).2 =
      { s with tasks :=
          setFirstById s.tasks task_id (resultTask (applyUpdate t d)) } := by
  cases happ : applyUpdate t d with
  | ok t'' => simp [update_task, hfind, hobj, happ, resultTask]
  | error e =>
    cases e with
    | mk m t'' => simp [update_task, hfind, hobj, happ, resultTask]

/-- C3: updating a stored task with a payload whose `completed` is not a
boolean (its earlier fields, if supplied, being valid) fails with the
`"Completed must be a boolean"` validation error and leaves the task's
stored `completed` unchanged — but the title and description supplied in
the same call are already committed in place when the error is returned,
matching the sequential field-order-dependent partial-commit behavior. -/
theorem update_nonBool_completed_partial_commit
    (s : StoreState) (task_id : Nat) (d : Dict) (t : Task)
    (hfind : findById s.tasks task_id = some t)
    (hhc : dictHas d "completed" = true)
    (hnb : (dictGet d "completed" JVal.null).isBool = false)
    (htitle : dictHas d "title" = true →
      (dictGet d "title" JVal.null).falsy = false) :
    update_task s task_id (some d) =
      (UpdateResult.validationError "Completed must be a boolean",
       { s with
         tasks :=
           setFirstById s.tasks task_id
             { t with
               title :=
                 if dictHas d "title" then dictGet d "title" JVal.null
                 else t.title,
               description :=
                 if dictHas d "description" then
                   dictGet d "description" JVal.null
                 else t.description } }) := by
  have hobj := obj_falsy_false_of_ne_nil (dict_ne_nil_of_has hhc)
  have happ : applyUpdate t d =
      .error ("Completed must be a boolean",
        { t with
          title :=
            if dictHas d "title" then dictGet d "title" JVal.null
            else t.title,
          description :=
            if dictHas d "description" then dictGet d "description" JVal.null
            else t.description }) := by
    cases ht : dictHas d "title" with
    | false =>
      by_cases hdesc : dictHas d "description" = true <;>
        simp [applyUpdate, ht, hdesc, hhc, hnb]
    | true =>
      have hft := htitle ht
      by_cases hdesc : dictHas d "description" = true <;>
        simp [applyUpdate, ht, hft, hdesc, hhc, hnb]
  simp [update_task, hfind, hobj, happ]

/-- Witness for C3: updating seed task 1 with
`{"title": "New", "description": "D", "completed": "yes"}` returns the
boolean validation error while the new title and description are already
stored; `completed` stays `false`. -/
theorem update_nonBool_completed_partial_commit_witness :
    update_task initialState 1
        (some [("title", JVal.str "New"), ("description", JVal.str "D"),
               ("completed", JVal.str "yes")]) =
      (UpdateResult.validationError "Completed must be a boolean",
       { tasks :=
           [ { id := 1, title := JVal.str "New",
               description := JVal.str "D",
               completed := JVal.bool false,
               created_at := "2024-01-15T10:00:00Z" },
             { id := 2, title := JVal.str "Write Unit Tests",
               description := JVal.str "Create comprehensive test suite",
               completed := JVal.bool false,
               created_at := "2024-01-15T11:00:00Z" } ],
         task_counter := 3 }) := by
  have h := update_nonBool_completed_partial_commit initialState 1
    [("title", JVal.str "New"), ("description", JVal.str "D"),
     ("completed", JVal.str "yes")]
    { id := 1, title := JVal.str "Setup CI/CD Pipeline",
      description := JVal.str "Configure GitHub Actions",
      completed := JVal.bool false, created_at := "2024-01-15T10:00:00Z" }
    rfl rfl rfl (fun _ => rfl)
  exact h

/-- C6: a successful `Update` returns a task with the same `id` and an
unchanged `created_at`; every field not supplied in the payload is
untouched; the collection keeps its length and every task whose id is not
the updated one is unchanged at its position. -/
theorem update_success_frame
    (s : StoreState) (task_id : Nat) (d : Dict) (t t' : Task)
    (hfind : findById s.tasks task_id = some t)
    (hok : (update_task s task_id (some d)).1 = UpdateResult.ok t') :
    t'.id = t.id ∧ t'.created_at = t.created_at ∧
    (dictHas d "title" = false → t'.title = t.title) ∧
    (dictHas d "description" = false → t'.description = t.description) ∧
    (dictHas d "completed" = false → t'.completed = t.completed) ∧
    (update_task s task_id (some d)).2.tasks.length = s.tasks.length ∧
    ∀ (j : Nat) (u : Task), s.tasks.get? j = some u → u.id ≠ task_id →
      (update_task s task_id (some d)).2.tasks.get? j = some u := by
  by_cases hobj : (JVal.obj d).falsy = true
  · simp [update_task, hfind, hobj] at hok
  · rw [Bool.not_eq_true] at hobj
    have hstate := update_task_state_eq s task_id d t hfind hobj
    have hres : resultTask (applyUpdate t d) = t' := by
      cases happ : applyUpdate t d with
      | ok t'' =>
        have : t'' = t' := by simpa [update_task, hfind, hobj, happ] using hok
        simp [resultTask, this]
      | error e =>
        cases e with
        | mk m t'' => simp [update_task, hfind, hobj, happ] at hok
    have hfields := applyUpdate_resultTask t d
    rw [hres] at hfields hstate
    refine ⟨hfields.1, hfields.2.1, hfields.2.2.1, hfields.2.2.2.1,
      fun h => hfields.2.2.2.2 (Or.inl h), ?_, ?_⟩
    · rw [hstate]
      exact setFirstById_length s.tasks task_id t'
    · intro j u hu hne
      rw [hstate]
      exact setFirstById_get?_ne s.tasks task_id t' j u hu hne

/-- Witness for C6: successfully setting `completed` of seed task 1 keeps
the collection's length and leaves task 2 in place. -/
theorem update_success_frame_witness :
    (update_task initialState 1
        (some [("completed", JVal.bool true)])).2.tasks.length =
      initialState.tasks.length ∧
    ∀ (j : Nat) (u : Task), initialState.tasks.get? j = some u → u.id ≠ 1 →
      (update_task initialState 1
          (some [("completed", JVal.bool true)])).2.tasks.get? j = some u := by
  have h := update_success_frame initialState 1 [("completed", JVal.bool true)]
    { id := 1, title := JVal.str "Setup CI/CD Pipeline",
      description := JVal.str "Configure GitHub Actions",
      completed := JVal.bool false, created_at := "2024-01-15T10:00:00Z" }
    { id := 1, title := JVal.str "Setup CI/CD Pipeline",
      description := JVal.str "Configure GitHub Actions",
      completed := JVal.bool true, created_at := "2024-01-15T10:00:00Z" }
    rfl rfl
  exact ⟨h.2.2.2.2.2.1, h.2.2.2.2.2.2⟩

/-! ## Lemmas for deletion -/

theorem filter_ne_length (ts : List Task) (i : Nat)
    (hnd : (ts.map Task.id).Nodup) (hmem : i ∈ ts.map Task.id) :
    (ts.filter (fun u => u.id != i)).length + 1 = ts.length := by
  induction ts with
  | nil => simp at hmem
  | cons a rest ih =>
    simp only [List.map_cons, List.nodup_cons] at hnd
    rcases hnd with ⟨hnotin, hndrest⟩
    by_cases ha : a.id = i
    · subst ha
      have hfr : rest.filter (fun u => u.id != a.id) = rest := by
        apply List.filter_eq_self.mpr
        intro u hu
        have hne : u.id ≠ a.id := by
          intro he
          exact hnotin (he ▸ List.mem_map_of_mem Task.id hu)
        simpa using fun hh => hne hh
      simp [List.filter_cons, hfr]
    · have hmem' : i ∈ rest.map Task.id := by
        rcases (by simpa using hmem :
            i = a.id ∨ ∃ u ∈ rest, u.id = i) with h | ⟨u, hu, hui⟩
        · exact absurd h.symm ha
        · exact hui ▸ List.mem_map_of_mem Task.id hu
      have hrec := ih hndrest hmem'
      have hbne : (a.id != i) = true := by simpa using ha
      simp [List.filter_cons, hbne]
      omega

/-- C7: `Delete` fails with `NotFound(id)`, leaving the state unchanged,
when no task has the id; otherwise it succeeds and removes exactly the one
task with the matching id (by identity of id): every surviving task is an
original one with a different id, every original task with a different id
survives, the survivors keep their relative order, the count drops by one
(given the store's distinct-ids invariant), and a subsequent `Get` of the
same id fails with `NotFound`. -/
theorem delete_spec (s : StoreState) (task_id : Nat) :
    (findById s.tasks task_id = none →
      delete_task s task_id = (DeleteResult.notFound task_id, s)) ∧
    ∀ t, findById s.tasks task_id = some t →
      (delete_task s task_id).1 = DeleteResult.ok task_id ∧
      (∀ u ∈ (delete_task s task_id).2.tasks, u ∈ s.tasks ∧ u.id ≠ task_id) ∧
      (∀ u ∈ s.tasks, u.id ≠ task_id →
        u ∈ (delete_task s task_id).2.tasks) ∧
      List.Sublist (delete_task s task_id).2.tasks s.tasks ∧
      ((s.tasks.map Task.id).Nodup →
        (delete_task s task_id).2.tasks.length + 1 = s.tasks.length) ∧
      get_task (delete_task s task_id).2 task_id =
        GetResult.notFound task_id := by
  constructor
  · intro h
    simp [delete_task, h]
  · intro t hfind
    have h1 : (delete_task s task_id).1 = DeleteResult.ok task_id := by
      simp [delete_task, hfind]
    have h2 : (delete_task s task_id).2.tasks =
        s.tasks.filter (fun u => u.id != task_id) := by
      simp [delete_task, hfind]
    refine ⟨h1, ?_, ?_, ?_, ?_, ?_⟩
    · intro u hu
      rw [h2] at hu
      have hm := List.mem_filter.mp hu
      exact ⟨hm.1, by simpa using hm.2⟩
    · intro u hu hne
      rw [h2]
      exact List.mem_filter.mpr ⟨hu, by simpa using hne⟩
    · rw [h2]
      exact List.filter_sublist s.tasks
    · intro hnd
      rw [h2]
      have hmem : task_id ∈ s.tasks.map Task.id :=
        findById_id hfind ▸ List.mem_map_of_mem Task.id (findById_mem hfind)
      exact filter_ne_length s.tasks task_id hnd hmem
    · have hnone : findById (delete_task s task_id).2.tasks task_id = none := by
        rw [h2]
        unfold findById
        apply List.find?_eq_none.mpr
        intro u hu
        have := (List.mem_filter.mp hu).2
        simpa using this
      simp [get_task, hnone]

/-- Witness for C7: deleting seed task 1 succeeds and a subsequent `Get`
of id 1 fails with `NotFound`. -/
theorem delete_spec_witness :
    (delete_task initialState 1).1 = DeleteResult.ok 1 ∧
    get_task (delete_task initialState 1).2 1 = GetResult.notFound 1 := by
  have h := (delete_spec initialState 1).2
    { id := 1, title := JVal.str "Setup CI/CD Pipeline",
      description := JVal.str "Configure GitHub Actions",
      completed := JVal.bool false, created_at := "2024-01-15T10:00:00Z" }
    rfl
  exact ⟨h.1, h.2.2.2.2.2⟩

/-! ## Classification of the three mutating operations -/

theorem create_classify (s : StoreState) (data : Option Dict) (now : String) :
    ((∀ t, (create_task s data now).1 ≠ CreateResult.ok t) ∧
      (create_task s data now).2 = s) ∨
    (∃ t, (create_task s data now).1 = CreateResult.ok t ∧
      t.id = s.task_counter ∧
      (create_task s data now).2 =
        { tasks := s.tasks ++ [t], task_counter := s.task_counter + 1 }) := by
  cases data with
  | none => exact Or.inl ⟨fun t h => CreateResult.noConfusion h, rfl⟩
  | some d =>
    by_cases h1 : (JVal.obj d).falsy = true
    · refine Or.inl ⟨?_, ?_⟩ <;> simp [create_task, h1]
    · rw [Bool.not_eq_true] at h1
      by_cases h2 :
          (!(dictHas d "title") || (dictGet d "title" JVal.null).falsy) = true
      · refine Or.inl ⟨?_, ?_⟩ <;> simp [create_task, h1, h2]
      · rw [Bool.not_eq_true] at h2
        cases hp : (dictGet d "title" JVal.null).pyLen with
        | none => refine Or.inl ⟨?_, ?_⟩ <;> simp [create_task, h1, h2, hp]
        | some n =>
          by_cases h3 : n < 1
          · refine Or.inl ⟨?_, ?_⟩ <;> simp [create_task, h1, h2, hp, h3]
          · refine Or.inr ⟨{ id := s.task_counter,
                             title := dictGet d "title" JVal.null,
                             description := dictGet d "description" (JVal.str ""),
                             completed := dictGet d "completed" (JVal.bool false),
                             created_at := now }, ?_, rfl, ?_⟩ <;>
              simp [create_task, h1, h2, hp, h3]

theorem update_classify (s : StoreState) (i : Nat) (data : Option Dict) :
    (update_task s i data).2.task_counter = s.task_counter ∧
    (update_task s i data).2.tasks.map Task.id = s.tasks.map Task.id ∧
    (update_task s i data).2.tasks.length = s.tasks.length := by
  cases hfind : findById s.tasks i with
  | none => simp [update_task, hfind]
  | some t =>
    cases data with
    | none => simp [update_task, hfind]
    | some d =>
      by_cases hobj : (JVal.obj d).falsy = true
      · simp [update_task, hfind, hobj]
      · rw [Bool.not_eq_true] at hobj
        have hstate := update_task_state_eq s i d t hfind hobj
        have hid : (resultTask (applyUpdate t d)).id = i :=
          (applyUpdate_resultTask t d).1.trans (findById_id hfind)
        rw [hstate]
        exact ⟨rfl, setFirstById_map_id s.tasks i _ hid,
          setFirstById_length s.tasks i _⟩

theorem delete_classify (s : StoreState) (i : Nat) :
    (delete_task s i).2.task_counter = s.task_counter ∧
    (((∀ r, (delete_task s i).1 ≠ DeleteResult.ok r) ∧
        (delete_task s i).2 = s) ∨
      ((delete_task s i).1 = DeleteResult.ok i ∧
        (delete_task s i).2.tasks = s.tasks.filter (fun u => u.id != i) ∧
        i ∈ s.tasks.map Task.id)) := by
  cases hfind : findById s.tasks i with
  | none =>
    refine ⟨by simp [delete_task, hfind], Or.inl ⟨?_, ?_⟩⟩ <;>
      simp [delete_task, hfind]
  | some t =>
    refine ⟨by simp [delete_task, hfind], Or.inr ⟨?_, ?_, ?_⟩⟩
    · simp [delete_task, hfind]
    · simp [delete_task, hfind]
    · exact findById_id hfind ▸ List.mem_map_of_mem Task.id (findById_mem hfind)

/-! ## The store invariant and the counter along operation sequences -/

theorem stateInv_applyOp (s : StoreState) (op : Op) (h : stateInv s) :
    stateInv (applyOp s op) := by
  obtain ⟨hlt, hnd⟩ := h
  cases op with
  | create d now =>
    show stateInv (create_task s d now).2
    rcases create_classify s d now with ⟨_, hst⟩ | ⟨t, _, hid, hst⟩
    · rw [hst]; exact ⟨hlt, hnd⟩
    · rw [hst]
      constructor
      · intro j hj
        rcases (by simpa using hj :
            (∃ u ∈ s.tasks, u.id = j) ∨ j = t.id) with ⟨u, hu, huj⟩ | rfl
        · have := hlt j (huj ▸ List.mem_map_of_mem Task.id hu)
          show j < s.task_counter + 1
          omega
        · show t.id < s.task_counter + 1
          omega
      · rw [List.map_append, List.nodup_append]
        refine ⟨hnd, List.nodup_singleton t.id, ?_⟩
        intro a ha hb
        have h1 := hlt a ha
        have h2 : a = t.id := by simpa using hb
        omega
  | update i d =>
    have hcl := update_classify s i d
    show stateInv (update_task s i d).2
    constructor
    · intro j hj
      rw [hcl.2.1] at hj
      rw [hcl.1]
      exact hlt j hj
    · rw [hcl.2.1]; exact hnd
  | delete i =>
    obtain ⟨hc, hcase⟩ := delete_classify s i
    show stateInv (delete_task s i).2
    rcases hcase with ⟨_, hst⟩ | ⟨_, hts, _⟩
    · rw [hst]; exact ⟨hlt, hnd⟩
    · have hsub : List.Sublist ((delete_task s i).2.tasks.map Task.id)
          (s.tasks.map Task.id) := by
        rw [hts]
        exact (List.filter_sublist s.tasks).map Task.id
      constructor
      · intro j hj
        rw [hc]
        exact hlt j (hsub.subset hj)
      · exact hnd.sublist hsub

theorem applyOp_counter_le (s : StoreState) (op : Op) :
    s.task_counter ≤ (applyOp s op).task_counter := by
  cases op with
  | create d now =>
    show s.task_counter ≤ (create_task s d now).2.task_counter
    rcases create_classify s d now with ⟨_, hst⟩ | ⟨t, _, _, hst⟩
    · rw [hst]
    · rw [hst]
      show s.task_counter ≤ s.task_counter + 1
      omega
  | update i d => exact (update_classify s i d).1.ge
  | delete i => exact (delete_classify s i).1.ge

theorem createdIds_lb_sorted (ops : List Op) : ∀ s : StoreState,
    (∀ j ∈ createdIds s ops, s.task_counter ≤ j) ∧
    (createdIds s ops).Pairwise (· < ·) := by
  induction ops with
  | nil => intro s; simp [createdIds]
  | cons op rest ih =>
    intro s
    have htail := ih (applyOp s op)
    have hmono := applyOp_counter_le s op
    cases op with
    | update i d =>
      refine ⟨?_, by simpa [createdIds] using htail.2⟩
      intro j hj
      have hj' : j ∈ createdIds (applyOp s (.update i d)) rest := by
        simpa [createdIds] using hj
      exact le_trans hmono (htail.1 j hj')
    | delete i =>
      refine ⟨?_, by simpa [createdIds] using htail.2⟩
      intro j hj
      have hj' : j ∈ createdIds (applyOp s (.delete i)) rest := by
        simpa [createdIds] using hj
      exact le_trans hmono (htail.1 j hj')
    | create d now =>
      cases hc : (create_task s d now).1 with
      | validationError m =>
        refine ⟨?_, by simpa [createdIds, hc] using htail.2⟩
        intro j hj
        have hj' : j ∈ createdIds (applyOp s (.create d now)) rest := by
          simpa [createdIds, hc] using hj
        exact le_trans hmono (htail.1 j hj')
      | typeError =>
        refine ⟨?_, by simpa [createdIds, hc] using htail.2⟩
        intro j hj
        have hj' : j ∈ createdIds (applyOp s (.create d now)) rest := by
          simpa [createdIds, hc] using hj
        exact le_trans hmono (htail.1 j hj')
      | ok t =>
        rcases create_classify s d now with ⟨hne, _⟩ | ⟨t', hok, hid, hst⟩
        · exact absurd hc (hne t)
        · have htt : t' = t := by
            have := hok.symm.trans hc
            injection this
          subst htt
          have hcount : (applyOp s (.create d now)).task_counter =
              s.task_counter + 1 := by
            show (create_task s d now).2.task_counter = _
            rw [hst]
          have hcid : createdIds s (.create d now :: rest) =
              t'.id :: createdIds (applyOp s (.create d now)) rest := by
            simp [createdIds, hc]
          constructor
          · intro j hj
            rw [hcid] at hj
            rcases List.mem_cons.mp hj with rfl | hj
            · omega
            · have := htail.1 j hj
              rw [hcount] at this
              omega
          · rw [hcid]
            refine List.pairwise_cons.mpr ⟨?_, htail.2⟩
            intro j hj
            have := htail.1 j hj
            rw [hcount] at this
            omega

/-- C2: from the seeded initial state, across every sequence of Create,
Update and Delete operations, the ids of all tasks ever created — the two
seed ids together with the ids handed out by successful creates — are
pairwise distinct; in particular an id is never reused after a deletion. -/
theorem created_ids_never_reused (ops : List Op) :
    (initialState.tasks.map Task.id ++ createdIds initialState ops).Nodup := by
  have h := createdIds_lb_sorted ops initialState
  rw [List.nodup_append]
  refine ⟨by decide, h.2.imp Nat.ne_of_lt, ?_⟩
  intro a ha hb
  have h3 := h.1 a hb
  rw [show initialState.task_counter = 3 from rfl] at h3
  have : a = 1 ∨ a = 2 := by simpa [initialState] using ha
  omega

/-! ## Counting lemma for List -/

theorem runOps_length (ops : List Op) : ∀ s : StoreState, stateInv s →
    (runOps s ops).tasks.length + succDeletes s ops =
      s.tasks.length + succCreates s ops := by
  induction ops with
  | nil => intro s _; simp [runOps, succDeletes, succCreates]
  | cons op rest ih =>
    intro s hinv
    have hrec := ih (applyOp s op) (stateInv_applyOp s op hinv)
    cases op with
    | create d now =>
      rcases create_classify s d now with ⟨hne, hst⟩ | ⟨t, hok, _, hst⟩
      · cases hc : (create_task s d now).1 with
        | ok t => exact absurd hc (hne t)
        | validationError m =>
          have hs : applyOp s (Op.create d now) = s := hst
          rw [hs] at hrec
          simp only [runOps, succDeletes, succCreates, hc, hs]
          omega
        | typeError =>
          have hs : applyOp s (Op.create d now) = s := hst
          rw [hs] at hrec
          simp only [runOps, succDeletes, succCreates, hc, hs]
          omega
      · have hlen : (applyOp s (Op.create d now)).tasks.length =
            s.tasks.length + 1 := by
          show (create_task s d now).2.tasks.length = _
          rw [hst]
          simp
        simp only [runOps, succDeletes, succCreates, hok]
        omega
    | update i d =>
      have hlen := (update_classify s i d).2.2
      simp only [runOps, succDeletes, succCreates]
      have hlen' : (applyOp s (Op.update i d)).tasks.length =
          s.tasks.length := hlen
      omega
    | delete i =>
      obtain ⟨_, hcase⟩ := delete_classify s i
      rcases hcase with ⟨hne, hst⟩ | ⟨hok, hts, hmem⟩
      · cases hc : (delete_task s i).1 with
        | ok r => exact absurd hc (hne r)
        | notFound r =>
          have hs : applyOp s (Op.delete i) = s := hst
          rw [hs] at hrec
          simp only [runOps, succDeletes, succCreates, hc, hs]
          omega
      · have hlen : (applyOp s (Op.delete i)).tasks.length + 1 =
            s.tasks.length := by
          show (delete_task s i).2.tasks.length + 1 = _
          rw [hts]
          exact filter_ne_length s.tasks i hinv.2 hmem
        simp only [runOps, succDeletes, succCreates, hok]
        omega

/-- C9: `List` is read-only and total — it returns exactly the stored
tasks, in order, with a count equal to their number — and after any
sequence of operations from the seeded initial state the count equals the
initial count plus the number of successful creates minus the number of
successful deletes (stated additively). -/
theorem list_count_spec (ops : List Op) :
    (∀ s : StoreState, get_tasks s = (s.tasks, s.tasks.length)) ∧
    (get_tasks (runOps initialState ops)).2 + succDeletes initialState ops =
      initialState.tasks.length + succCreates initialState ops := by
  refine ⟨fun s => rfl, ?_⟩
  have hinv : stateInv initialState := by
    refine ⟨?_, ?_⟩ <;> decide
  exact runOps_length ops initialState hinv

end TaskApp
